import Mathlib

/-!
Shallow embedding of `joblib/numpy_pickle.py`: a pickler that diverts numpy
arrays into separate `.npy` side files and replaces them in the main pickle
stream by `NDArrayWrapper` placeholders, plus the matching unpickler, the
`dump`/`load` stream drivers and the `dumpz`/`loadz` archive bundlers.

Machine-level conventions of the embedding:
* a numpy array is a record of shape, dtype and contents (`np.save`/`np.load`
  are the external array codec, assumed to round-trip an array faithfully);
* a file system path is a directory string (`os.path.dirname`) plus a base
  name (`os.path.basename`); the side-file name
  `'%s_%02i.npy' % (self._filename, counter)` appends only to the base
  component, which we model with the structured constructor `FileName.side`
  carrying the base string and the counter;
* the disk is an association list from paths to array contents, newest write
  first (`np.save` overwrites, so lookup takes the first match);
* encode failures of `np.save` are injected through an oracle `ok : Nat → Bool`
  consulted at the n-th save attempt of the write pass.
-/

namespace NumpyPickle

/-- A numpy `ndarray` as seen through the external array codec: contents,
dtype and shape (`np.save` writes all three to the side file, `np.load`
restores them). -/
structure NpArray where
  shape : List Nat
  dtype : String
  data : List Int
deriving DecidableEq, Repr

/-- The base name of a file (`os.path.basename`).  `main b` is an arbitrary
base name handed to `dump`; `side b c` is the base name
`b ++ "_%02i" % c ++ ".npy"` of the c-th side file derived from a main file
whose full path renders as `b`. -/
inductive FileName where
  | main : String → FileName
  | side : String → Nat → FileName
deriving DecidableEq, Repr

/-- A full path: directory part (`os.path.dirname`) and base name
(`os.path.basename`); `os.path.join` of a directory and a base name puts
them back together. -/
structure FPath where
  dir : String
  name : FileName
deriving DecidableEq, Repr

/-- `'%02i' % n`: decimal rendering of the counter, zero-padded to width 2. -/
def fmt02 (n : Nat) : String :=
  if n < 10 then "0" ++ toString n else toString n

/-- Render a base name to the string the Python code manipulates. -/
def renderFileName : FileName → String
  | .main b => b
  | .side b c => b ++ "_" ++ fmt02 c ++ ".npy"

/-- The string `self._filename` of the pickler: the full path it was given. -/
def renderPath (p : FPath) : String :=
  p.dir ++ "/" ++ renderFileName p.name

/-- `'%s_%02i.npy' % (self._filename, counter)` applied to the full path `p`:
the suffix contains no path separator, so the directory part is unchanged and
the base name becomes `FileName.side` of the rendered base of `p`. -/
def sidePath (p : FPath) (c : Nat) : FPath :=
  ⟨p.dir, FileName.side (renderFileName p.name) c⟩

/-- Python object graphs handed to `dump`: primitive leaves, numpy arrays,
lists and string-keyed dicts, nested arbitrarily. -/
inductive PyVal where
  | str : String → PyVal
  | int : Int → PyVal
  | arr : NpArray → PyVal
  | list : List PyVal → PyVal
  | dict : List (String × PyVal) → PyVal

/-- The contents of the main pickle stream: like `PyVal`, except that an
array node is either externalized into an `NDArrayWrapper` placeholder
(which stores only the side file's base name, `os.path.basename(filename)`)
or, on the fallback path, pickled inline by the generic engine. -/
inductive PklVal where
  | str : String → PklVal
  | int : Int → PklVal
  | arr : NpArray → PklVal
  | wrapper : FileName → PklVal
  | list : List PklVal → PklVal
  | dict : List (String × PklVal) → PklVal

/-- The mutable state of one `NumpyPickler` write pass: `self._filename`,
`self._filenames` (the manifest), `self._npy_counter`, plus the embedding's
bookkeeping: the attempt index consulted by the failure oracle, and the side
files written to disk so far (newest first). -/
structure PicklerState where
  filename : FPath
  filenames : List FPath
  npy_counter : Nat
  attempt : Nat
  disk : List (FPath × NpArray)

/-- The array branch of `NumpyPickler.save` (the interception that runs when
`isinstance(obj, np.ndarray)`):

    self._npy_counter += 1
    try:
        filename = '%s_%02i.npy' % (self._filename, self._npy_counter)
        self._filenames.append(filename)
        self.np.save(filename, obj)
        obj = NDArrayWrapper(os.path.basename(filename))
    except:
        self._npy_counter -= 1
        print ...

The name is appended to the manifest before `np.save` runs and is not
removed on failure; the counter increment is rolled back on failure; on
failure `obj` is left as the original array, to be pickled inline by
`pickle.Pickler.save`. -/
def saveArray (ok : Nat → Bool) (st : PicklerState) (a : NpArray) :
    PicklerState × PklVal :=
  let c := st.npy_counter + 1
  let fn : FPath := sidePath st.filename c
  let fns := st.filenames ++ [fn]
  if ok st.attempt then
    ({ st with npy_counter := c, filenames := fns, attempt := st.attempt + 1,
               disk := (fn, a) :: st.disk },
     PklVal.wrapper fn.name)
  else
    ({ st with filenames := fns, attempt := st.attempt + 1 }, PklVal.arr a)

mutual

/-- One engine write pass with `NumpyPickler.save` attached: every node is
offered to the array interception first; non-arrays are serialized by the
generic engine, which recurses into containers element by element. -/
def pickleVal (ok : Nat → Bool) (st : PicklerState) : PyVal → PicklerState × PklVal
  | .str s => (st, .str s)
  | .int n => (st, .int n)
  | .arr a => saveArray ok st a
  | .list vs =>
      let r := pickleList ok st vs
      (r.1, .list r.2)
  | .dict kvs =>
      let r := pickleDict ok st kvs
      (r.1, .dict r.2)

/-- The generic engine's traversal of a list's elements, left to right. -/
def pickleList (ok : Nat → Bool) (st : PicklerState) :
    List PyVal → PicklerState × List PklVal
  | [] => (st, [])
  | v :: vs =>
      let r1 := pickleVal ok st v
      let r2 := pickleList ok r1.1 vs
      (r2.1, r1.2 :: r2.2)

/-- The generic engine's traversal of a dict's entries, in order. -/
def pickleDict (ok : Nat → Bool) (st : PicklerState) :
    List (String × PyVal) → PicklerState × List (String × PklVal)
  | [] => (st, [])
  | (k, v) :: kvs =>
      let r1 := pickleVal ok st v
      let r2 := pickleDict ok r1.1 kvs
      (r2.1, (k, r1.2) :: r2.2)

end

/-- The result of `dump(value, filename)`: the returned manifest
`pickler._filenames`, the contents of the main stream, the side files
written to disk, and the final `_npy_counter` (the number of successful
externalizations). -/
structure DumpResult where
  filenames : List FPath
  stream : PklVal
  disk : List (FPath × NpArray)
  npy_counter : Nat

/-- `dump(value, filename)`: build a `NumpyPickler` (which initializes the
manifest to `[filename]` and the counter to 0), run one write pass, return
`pickler._filenames`. -/
def dump (ok : Nat → Bool) (value : PyVal) (filename : FPath) : DumpResult :=
  let st0 : PicklerState := ⟨filename, [filename], 0, 0, []⟩
  let r := pickleVal ok st0 value
  ⟨r.1.filenames, r.2, r.1.disk, r.1.npy_counter⟩

/-- Look a path up on the modelled disk (first match wins: `np.save`
overwrites, and the disk lists the newest write first). -/
def lookupFile {α : Type} : List (FPath × α) → FPath → Option α
  | [], _ => none
  | (q, a) :: rest, p => if q = p then some a else lookupFile rest p

/-- `NumpyUnpickler._open_file(name)`:
`os.path.join(self._dirname, name)` — the side file is resolved relative to
the main stream's directory, never the working directory. -/
def open_file (dirname : String) (name : FileName) : FPath :=
  ⟨dirname, name⟩

/-- `np.load(path, mmap_mode)` on a side file holding array `a`: in copy
mode and in memory-mapped mode alike the loaded object carries the same
contents, dtype and shape (the array codec is assumed correct). -/
def npLoad (a : NpArray) (_mmap_mode : Option String) : NpArray := a

mutual

/-- One engine read pass with `NumpyUnpickler.load_build` attached: the
generic engine rebuilds each node, and immediately after an object's state
is set the interception replaces an `NDArrayWrapper` placeholder at the top
of the stack by the array loaded from its side file.  A missing or
unreadable side file raises an `IOError`, which aborts the read. -/
def unpickleVal (disk : List (FPath × NpArray)) (dirname : String)
    (mmap_mode : Option String) : PklVal → Except String PyVal
  | .str s => .ok (.str s)
  | .int n => .ok (.int n)
  | .arr a => .ok (.arr a)
  | .wrapper name =>
      match lookupFile disk (open_file dirname name) with
      | some a => .ok (.arr (npLoad a mmap_mode))
      | none => .error ("IOError: " ++ renderFileName name)
  | .list pvs =>
      match unpickleList disk dirname mmap_mode pvs with
      | .ok vs => .ok (.list vs)
      | .error e => .error e
  | .dict pkvs =>
      match unpickleDict disk dirname mmap_mode pkvs with
      | .ok kvs => .ok (.dict kvs)
      | .error e => .error e

/-- Rebuild a list's elements, left to right; the first failure aborts. -/
def unpickleList (disk : List (FPath × NpArray)) (dirname : String)
    (mmap_mode : Option String) : List PklVal → Except String (List PyVal)
  | [] => .ok []
  | pv :: pvs =>
      match unpickleVal disk dirname mmap_mode pv with
      | .ok v =>
          match unpickleList disk dirname mmap_mode pvs with
          | .ok vs => .ok (v :: vs)
          | .error e => .error e
      | .error e => .error e

/-- Rebuild a dict's entries, in order; the first failure aborts. -/
def unpickleDict (disk : List (FPath × NpArray)) (dirname : String)
    (mmap_mode : Option String) :
    List (String × PklVal) → Except String (List (String × PyVal))
  | [] => .ok []
  | (k, pv) :: pkvs =>
      match unpickleVal disk dirname mmap_mode pv with
      | .ok v =>
          match unpickleDict disk dirname mmap_mode pkvs with
          | .ok kvs => .ok ((k, v) :: kvs)
          | .error e => .error e
      | .error e => .error e

end

/-- `load(filename, mmap_mode)`: split `filename` into
`self._dirname`/`self._filename`, open the main stream, run one engine read
pass with the placeholder resolution attached (side files resolved against
`self._dirname`), and return the reconstructed object.  `streams` is the
set of main-stream files present on disk. -/
def load (streams : List (FPath × PklVal)) (disk : List (FPath × NpArray))
    (filename : FPath) (mmap_mode : Option String) : Except String PyVal :=
  match lookupFile streams filename with
  | some pv => unpickleVal disk filename.dir mmap_mode pv
  | none => .error ("IOError: " ++ renderFileName filename.name)

/-! ### The unpickler's stack, at the granularity of `load_build`

`NumpyUnpickler.load_build` first lets `Unpickler.load_build` run (the
generic BUILD opcode, which sets the just-created object's state), then
inspects `self.stack[-1]`.  We model the reconstruction stack with its top
as the head of the list, and the interception step that follows the generic
build. -/

/-- An object on the unpickler's reconstruction stack: either an
`NDArrayWrapper` placeholder fresh from its BUILD, or any other object. -/
inductive StackObj where
  | wrapper : FileName → StackObj
  | other : PyVal → StackObj

/-- The interception half of `NumpyUnpickler.load_build`, run after
`Unpickler.load_build(self)` has produced the stack `stack`:

    if isinstance(self.stack[-1], NDArrayWrapper):
        nd_array_wrapper = self.stack.pop()
        array = self.np.load(self._open_file(nd_array_wrapper.filename),
                             mmap_mode=self.mmap_mode)
        self.stack.append(array)

(The numpy-version branch in the source performs the same call in both
arms.)  A failing `np.load` (missing side file) raises. -/
def load_build (disk : List (FPath × NpArray)) (dirname : String)
    (mmap_mode : Option String) (stack : List StackObj) :
    Except String (List StackObj) :=
  match stack with
  | StackObj.wrapper name :: rest =>
      match lookupFile disk (open_file dirname name) with
      | some a => .ok (StackObj.other (PyVal.arr (npLoad a mmap_mode)) :: rest)
      | none => .error ("IOError: " ++ renderFileName name)
  | s => .ok s

/-! ### File-handle release in `dump` and `load`

`dump` closes through `finally: if 'pickler' in locals() and
hasattr(pickler, 'file'): pickler.file.flush(); pickler.file.close()`, and
`load` through `finally: if 'unpickler' in locals() and
hasattr(unpickler, 'file'): unpickler.file.close()`.  Whether the guard
fires depends on the attributes the two classes actually set, which we
transcribe from their constructors. -/

/-- Attributes set on a `NumpyPickler` instance: by `NumpyPickler.__init__`
(`_filename`, `_filenames`, `file`, `_npy_counter`, `np`) and by
`pickle.Pickler.__init__` (`write`, `memo`, `proto`, `bin`, `fast`). -/
def numpyPicklerAttrs : List String :=
  ["_filename", "_filenames", "file", "_npy_counter", "np",
   "write", "memo", "proto", "bin", "fast"]

/-- Attributes set on a `NumpyUnpickler` instance: by
`NumpyUnpickler.__init__` (`_filename`, `mmap_mode`, `_dirname`,
`file_handle`, `np`) and by `Unpickler.__init__` (`readline`, `read`,
`memo`).  Note: the open handle lives in `file_handle`; no attribute is
named `file`. -/
def numpyUnpicklerAttrs : List String :=
  ["_filename", "mmap_mode", "_dirname", "file_handle", "np",
   "readline", "read", "memo"]

/-- `hasattr(obj, name)` against a transcribed attribute set. -/
def hasattr (attrs : List String) (name : String) : Bool :=
  attrs.contains name

/-- Outcome of one `dump` or `load` call for resource accounting: is the
main stream's handle still open when the call exits, and did the call exit
by raising. -/
structure HandleOutcome where
  handleOpenAtExit : Bool
  raised : Bool
deriving DecidableEq

/-- Control flow of `dump(value, filename)` once the constructor has
completed (the handle is open and the name `pickler` is bound): the engine
pass may raise, then the `finally` block closes the handle when its guard
`'pickler' in locals() and hasattr(pickler, 'file')` holds, and any pending
exception propagates. -/
def dumpHandleFlow (engineRaises : Bool) : HandleOutcome :=
  let picklerBound := true
  let closed := picklerBound && hasattr numpyPicklerAttrs "file"
  ⟨!closed, engineRaises⟩

/-- Control flow of `load(filename, mmap_mode)` once the constructor has
completed (the handle is open and the name `unpickler` is bound): the
engine pass may raise, then the `finally` block closes the handle only when
`'unpickler' in locals() and hasattr(unpickler, 'file')` holds. -/
def loadHandleFlow (engineRaises : Bool) : HandleOutcome :=
  let unpicklerBound := true
  let closed := unpicklerBound && hasattr numpyUnpicklerAttrs "file"
  ⟨!closed, engineRaises⟩

/-! ### Temporary-directory lifecycle of `dumpz` and `loadz`

Both functions run, in source order: open/create the zip container, create
the temporary staging directory with `tempfile.mkdtemp`, then a
`try: ... finally: shutil.rmtree(tmp_dir)` around the staging work.  We
record the events touching the temporary directory, in execution order, for
every combination of failure points. -/

/-- Events of one `dumpz`/`loadz` call that matter to the temp-directory
lifecycle: the directory is created, the directory is removed, an exception
propagates out of the call. -/
inductive ZEvent where
  | mkTmp : ZEvent
  | rmTmp : ZEvent
  | raised : ZEvent
deriving DecidableEq

/-- Execution trace of `dumpz(value, filename)`.  Failure points, in source
order: `zipfile.ZipFile(filename, ...)` (before any temp dir exists),
`tempfile.mkdtemp` (raises without creating the directory), the staged
`dump` inside the `try`, and the `dump_file.write` loop inside the `try`;
the `finally` always removes the directory before the exception leaves. -/
def dumpzTrace (zipCreateFails mkdtempFails stageFails writeFails : Bool) :
    List ZEvent :=
  if zipCreateFails then [ZEvent.raised]
  else if mkdtempFails then [ZEvent.raised]
  else
    [ZEvent.mkTmp] ++ [ZEvent.rmTmp] ++
      (if stageFails || writeFails then [ZEvent.raised] else [])

/-- Execution trace of `loadz(filename)`.  Failure points, in source order:
`zipfile.ZipFile(filename, ...)`, `tempfile.mkdtemp`, `extractall` inside
the `try`, and the inner `load` inside the `try`; the `finally` always
removes the directory before the exception leaves. -/
def loadzTrace (zipOpenFails mkdtempFails extractFails restoreFails : Bool) :
    List ZEvent :=
  if zipOpenFails then [ZEvent.raised]
  else if mkdtempFails then [ZEvent.raised]
  else
    [ZEvent.mkTmp] ++ [ZEvent.rmTmp] ++
      (if extractFails || restoreFails then [ZEvent.raised] else [])

/-- Does the temporary directory still exist after the trace has run? -/
def tmpAfter (tr : List ZEvent) : Bool :=
  tr.foldl
    (fun s e =>
      match e with
      | ZEvent.mkTmp => true
      | ZEvent.rmTmp => false
      | ZEvent.raised => s)
    false

/-- Does some exception propagate while the temporary directory still
exists (i.e. before its removal)?  `t` is whether the directory exists when
the trace starts. -/
def raiseWithTmp : List ZEvent → Bool → Bool
  | [], _ => false
  | ZEvent.mkTmp :: r, _ => raiseWithTmp r true
  | ZEvent.rmTmp :: r, _ => raiseWithTmp r false
  | ZEvent.raised :: r, t => t || raiseWithTmp r t

/-- Did the trace end in a propagating exception? -/
def traceRaised (tr : List ZEvent) : Bool :=
  tr.contains ZEvent.raised

/-! ### Object identity and the pickler's memo

`pickle.Pickler.save` begins with a memo lookup: an object whose `id` was
already pickled is emitted as a back-reference (GET), which the unpickler
resolves to the very same rebuilt object.  `NumpyPickler.save` runs its
`isinstance(obj, np.ndarray)` interception *before* delegating to
`pickle.Pickler.save`, and on success rebinds `obj` to a freshly
constructed `NDArrayWrapper` — so an array's id never reaches the memo
lookup, and each occurrence is externalized anew.  This refined model adds
object identities and the memo to make that observable. -/

/-- A Python object graph with object identities (`id(obj)`): shared
references carry the same identity. -/
inductive IVal where
  | atom : String → IVal
  | arr : Nat → NpArray → IVal
  | list : Nat → List IVal → IVal

/-- The main stream at the opcode level of the identity model: a GET
back-reference stands for an object already emitted and memoized. -/
inductive IPkl where
  | atom : String → IPkl
  | wrapper : FileName → IPkl
  | get : Nat → IPkl
  | list : Nat → List IPkl → IPkl

/-- Write-pass state of the identity model: the pickler's path and counter,
the base engine's memo (ids already pickled) and the side files written. -/
structure IPicklerState where
  filename : FPath
  npy_counter : Nat
  memo : List Nat
  disk : List (FPath × NpArray)

mutual

/-- `NumpyPickler.save` in the identity model, with `np.save` always
succeeding.  The array branch runs first, before `pickle.Pickler.save` —
so before any memo lookup — and replaces the array by a fresh
`NDArrayWrapper`, whose own (fresh) id can never score a memo hit; the
array's id is never consulted nor recorded.  For container objects the
generic engine's memo applies: a repeated id is emitted as a GET. -/
def isave (st : IPicklerState) : IVal → IPicklerState × IPkl
  | .atom s => (st, .atom s)
  | .arr _oid a =>
      let c := st.npy_counter + 1
      let fn := sidePath st.filename c
      ({ st with npy_counter := c, disk := (fn, a) :: st.disk },
       IPkl.wrapper fn.name)
  | .list oid elems =>
      if st.memo.contains oid then (st, .get oid)
      else
        let st1 := { st with memo := oid :: st.memo }
        let r := isaveList st1 elems
        (r.1, .list oid r.2)

/-- Elements of a list, left to right, threading the memo. -/
def isaveList (st : IPicklerState) : List IVal → IPicklerState × List IPkl
  | [] => (st, [])
  | v :: vs =>
      let r1 := isave st v
      let r2 := isaveList r1.1 vs
      (r2.1, r1.2 :: r2.2)

end

/-- Read-pass state of the identity model: a fresh-id allocator (every
object the unpickler builds is a new object) and the unpickler's memo
mapping a GET key to the already-built — hence shared — object. -/
structure IUnpState where
  nextId : Nat
  memo : List (Nat × IVal)

/-- Memo lookup on the read side. -/
def lookupMemoI : List (Nat × IVal) → Nat → Option IVal
  | [], _ => none
  | (k, v) :: rest, n => if k = n then some v else lookupMemoI rest n

mutual

/-- The read pass of the identity model: placeholders load their side file
into a freshly allocated array object; GETs return the shared, previously
built object; containers are rebuilt as fresh objects and memoized. -/
def iload (disk : List (FPath × NpArray)) (dirname : String)
    (st : IUnpState) : IPkl → Except String (IUnpState × IVal)
  | .atom s => .ok (st, .atom s)
  | .wrapper name =>
      match lookupFile disk (open_file dirname name) with
      | some a =>
          .ok ({ st with nextId := st.nextId + 1 }, IVal.arr st.nextId a)
      | none => .error ("IOError: " ++ renderFileName name)
  | .get k =>
      match lookupMemoI st.memo k with
      | some v => .ok (st, v)
      | none => .error "UnpicklingError: bad memo key"
  | .list k pelems =>
      match iloadList disk dirname st pelems with
      | .ok (st1, elems) =>
          let built := IVal.list st1.nextId elems
          .ok (⟨st1.nextId + 1, (k, built) :: st1.memo⟩, built)
      | .error e => .error e

/-- Elements of a list, left to right, threading the unpickler state. -/
def iloadList (disk : List (FPath × NpArray)) (dirname : String)
    (st : IUnpState) : List IPkl → Except String (IUnpState × List IVal)
  | [] => .ok (st, [])
  | pv :: pvs =>
      match iload disk dirname st pv with
      | .ok (st1, v) =>
          match iloadList disk dirname st1 pvs with
          | .ok (st2, vs) => .ok (st2, v :: vs)
          | .error e => .error e
      | .error e => .error e

end

/-! ### Invariants of the write pass -/

/-- The side paths a write pass with `c` successful externalizations has
created, newest first: `sidePath p c, …, sidePath p 1`. -/
def sidePaths (p : FPath) : Nat → List FPath
  | 0 => []
  | c + 1 => sidePath p (c + 1) :: sidePaths p c

theorem sidePaths_length (p : FPath) (c : Nat) : (sidePaths p c).length = c := by
  induction c with
  | zero => rfl
  | succ n ih => simp [sidePaths, ih]

theorem sidePath_ne (p : FPath) {i j : Nat} (h : i ≠ j) :
    sidePath p i ≠ sidePath p j := by
  intro hc
  simp [sidePath, FPath.mk.injEq, FileName.side.injEq] at hc
  exact h hc

mutual

theorem pickleVal_filename (ok : Nat → Bool) (st : PicklerState) (v : PyVal) :
    (pickleVal ok st v).1.filename = st.filename := by
  cases v with
  | str s => rfl
  | int n => rfl
  | arr a =>
      show (saveArray ok st a).1.filename = st.filename
      unfold saveArray
      split <;> rfl
  | list vs =>
      have h := pickleList_filename ok st vs
      simpa [pickleVal] using h
  | dict kvs =>
      have h := pickleDict_filename ok st kvs
      simpa [pickleVal] using h

theorem pickleList_filename (ok : Nat → Bool) (st : PicklerState)
    (vs : List PyVal) : (pickleList ok st vs).1.filename = st.filename := by
  cases vs with
  | nil => rfl
  | cons v vs =>
      have h1 := pickleVal_filename ok st v
      have h2 := pickleList_filename ok (pickleVal ok st v).1 vs
      simp only [pickleList]
      rw [h2, h1]

theorem pickleDict_filename (ok : Nat → Bool) (st : PicklerState)
    (kvs : List (String × PyVal)) :
    (pickleDict ok st kvs).1.filename = st.filename := by
  cases kvs with
  | nil => rfl
  | cons kv kvs =>
      have h1 := pickleVal_filename ok st kv.2
      have h2 := pickleDict_filename ok (pickleVal ok st kv.2).1 kvs
      simp only [pickleDict]
      rw [h2, h1]

end

mutual

theorem pickleVal_counter_le (ok : Nat → Bool) (st : PicklerState) (v : PyVal) :
    st.npy_counter ≤ (pickleVal ok st v).1.npy_counter := by
  cases v with
  | str s => exact Nat.le_refl _
  | int n => exact Nat.le_refl _
  | arr a =>
      show st.npy_counter ≤ (saveArray ok st a).1.npy_counter
      unfold saveArray
      split
      · exact Nat.le_succ _
      · exact Nat.le_refl _
  | list vs =>
      have h := pickleList_counter_le ok st vs
      simpa [pickleVal] using h
  | dict kvs =>
      have h := pickleDict_counter_le ok st kvs
      simpa [pickleVal] using h

theorem pickleList_counter_le (ok : Nat → Bool) (st : PicklerState)
    (vs : List PyVal) : st.npy_counter ≤ (pickleList ok st vs).1.npy_counter := by
  cases vs with
  | nil => exact Nat.le_refl _
  | cons v vs =>
      have h1 := pickleVal_counter_le ok st v
      have h2 := pickleList_counter_le ok (pickleVal ok st v).1 vs
      simp only [pickleList]
      exact Nat.le_trans h1 h2

theorem pickleDict_counter_le (ok : Nat → Bool) (st : PicklerState)
    (kvs : List (String × PyVal)) :
    st.npy_counter ≤ (pickleDict ok st kvs).1.npy_counter := by
  cases kvs with
  | nil => exact Nat.le_refl _
  | cons kv kvs =>
      have h1 := pickleVal_counter_le ok st kv.2
      have h2 := pickleDict_counter_le ok (pickleVal ok st kv.2).1 kvs
      simp only [pickleDict]
      exact Nat.le_trans h1 h2

end

mutual

theorem pickleVal_lookup_stable (ok : Nat → Bool) (st : PicklerState)
    (v : PyVal) (i : Nat) (hi : i ≤ st.npy_counter) :
    lookupFile (pickleVal ok st v).1.disk (sidePath st.filename i) =
      lookupFile st.disk (sidePath st.filename i) := by
  cases v with
  | str s => rfl
  | int n => rfl
  | arr a =>
      show lookupFile (saveArray ok st a).1.disk (sidePath st.filename i) =
        lookupFile st.disk (sidePath st.filename i)
      unfold saveArray
      split
      · have hne : sidePath st.filename (st.npy_counter + 1) ≠
            sidePath st.filename i :=
          sidePath_ne _ (by omega)
        simp [lookupFile, hne]
      · rfl
  | list vs =>
      have h := pickleList_lookup_stable ok st vs i hi
      simpa [pickleVal] using h
  | dict kvs =>
      have h := pickleDict_lookup_stable ok st kvs i hi
      simpa [pickleVal] using h

theorem pickleList_lookup_stable (ok : Nat → Bool) (st : PicklerState)
    (vs : List PyVal) (i : Nat) (hi : i ≤ st.npy_counter) :
    lookupFile (pickleList ok st vs).1.disk (sidePath st.filename i) =
      lookupFile st.disk (sidePath st.filename i) := by
  cases vs with
  | nil => rfl
  | cons v vs =>
      have h1 := pickleVal_lookup_stable ok st v i hi
      have h2 := pickleList_lookup_stable ok (pickleVal ok st v).1 vs i
        (Nat.le_trans hi (pickleVal_counter_le ok st v))
      rw [pickleVal_filename ok st v] at h2
      simp only [pickleList]
      rw [h2, h1]

theorem pickleDict_lookup_stable (ok : Nat → Bool) (st : PicklerState)
    (kvs : List (String × PyVal)) (i : Nat) (hi : i ≤ st.npy_counter) :
    lookupFile (pickleDict ok st kvs).1.disk (sidePath st.filename i) =
      lookupFile st.disk (sidePath st.filename i) := by
  cases kvs with
  | nil => rfl
  | cons kv kvs =>
      have h1 := pickleVal_lookup_stable ok st kv.2 i hi
      have h2 := pickleDict_lookup_stable ok (pickleVal ok st kv.2).1 kvs i
        (Nat.le_trans hi (pickleVal_counter_le ok st kv.2))
      rw [pickleVal_filename ok st kv.2] at h2
      simp only [pickleDict]
      rw [h2, h1]

end

mutual

theorem pickleVal_diskShape (ok : Nat → Bool) (st : PicklerState) (v : PyVal)
    (h : st.disk.map Prod.fst = sidePaths st.filename st.npy_counter) :
    (pickleVal ok st v).1.disk.map Prod.fst =
      sidePaths st.filename (pickleVal ok st v).1.npy_counter := by
  cases v with
  | str s => exact h
  | int n => exact h
  | arr a =>
      show (saveArray ok st a).1.disk.map Prod.fst =
        sidePaths st.filename (saveArray ok st a).1.npy_counter
      unfold saveArray
      split
      · simp [sidePaths, h]
      · exact h
  | list vs =>
      have hh := pickleList_diskShape ok st vs h
      simpa [pickleVal] using hh
  | dict kvs =>
      have hh := pickleDict_diskShape ok st kvs h
      simpa [pickleVal] using hh

theorem pickleList_diskShape (ok : Nat → Bool) (st : PicklerState)
    (vs : List PyVal)
    (h : st.disk.map Prod.fst = sidePaths st.filename st.npy_counter) :
    (pickleList ok st vs).1.disk.map Prod.fst =
      sidePaths st.filename (pickleList ok st vs).1.npy_counter := by
  cases vs with
  | nil => exact h
  | cons v vs =>
      have h1 := pickleVal_diskShape ok st v h
      rw [← pickleVal_filename ok st v] at h1
      have h2 := pickleList_diskShape ok (pickleVal ok st v).1 vs h1
      rw [pickleVal_filename ok st v] at h2
      simp only [pickleList]
      exact h2

theorem pickleDict_diskShape (ok : Nat → Bool) (st : PicklerState)
    (kvs : List (String × PyVal))
    (h : st.disk.map Prod.fst = sidePaths st.filename st.npy_counter) :
    (pickleDict ok st kvs).1.disk.map Prod.fst =
      sidePaths st.filename (pickleDict ok st kvs).1.npy_counter := by
  cases kvs with
  | nil => exact h
  | cons kv kvs =>
      have h1 := pickleVal_diskShape ok st kv.2 h
      rw [← pickleVal_filename ok st kv.2] at h1
      have h2 := pickleDict_diskShape ok (pickleVal ok st kv.2).1 kvs h1
      rw [pickleVal_filename ok st kv.2] at h2
      simp only [pickleDict]
      exact h2

end

mutual

theorem pickleVal_unpickle (ok : Nat → Bool) (st : PicklerState) (v : PyVal)
    (d : List (FPath × NpArray)) (D : String)
    (hres : ∀ i, st.npy_counter < i →
      i ≤ (pickleVal ok st v).1.npy_counter →
      lookupFile d (open_file D (sidePath st.filename i).name) =
        lookupFile (pickleVal ok st v).1.disk (sidePath st.filename i)) :
    unpickleVal d D none (pickleVal ok st v).2 = Except.ok v := by
  cases v with
  | str s => rfl
  | int n => rfl
  | arr a =>
      simp only [pickleVal] at hres ⊢
      by_cases hok : ok st.attempt
      · have hkey := hres (st.npy_counter + 1) (Nat.lt_succ_self _)
          (by simp [saveArray, hok])
        simp only [saveArray, hok, if_pos] at hkey ⊢
        simp only [lookupFile, if_pos rfl] at hkey
        simp [unpickleVal, hkey, npLoad]
      · simp [saveArray, hok, unpickleVal]
  | list vs =>
      have h := pickleList_unpickle ok st vs d D (by simpa [pickleVal] using hres)
      simp [pickleVal, unpickleVal, h]
  | dict kvs =>
      have h := pickleDict_unpickle ok st kvs d D (by simpa [pickleVal] using hres)
      simp [pickleVal, unpickleVal, h]

theorem pickleList_unpickle (ok : Nat → Bool) (st : PicklerState)
    (vs : List PyVal) (d : List (FPath × NpArray)) (D : String)
    (hres : ∀ i, st.npy_counter < i →
      i ≤ (pickleList ok st vs).1.npy_counter →
      lookupFile d (open_file D (sidePath st.filename i).name) =
        lookupFile (pickleList ok st vs).1.disk (sidePath st.filename i)) :
    unpickleList d D none (pickleList ok st vs).2 = Except.ok vs := by
  cases vs with
  | nil => rfl
  | cons v vs =>
      simp only [pickleList] at hres ⊢
      have hfn := pickleVal_filename ok st v
      have hc1 := pickleVal_counter_le ok st v
      have hc2 := pickleList_counter_le ok (pickleVal ok st v).1 vs
      have hres1 : ∀ i, st.npy_counter < i →
          i ≤ (pickleVal ok st v).1.npy_counter →
          lookupFile d (open_file D (sidePath st.filename i).name) =
            lookupFile (pickleVal ok st v).1.disk (sidePath st.filename i) := by
        intro i h1 h2
        have hstep := pickleList_lookup_stable ok (pickleVal ok st v).1 vs i h2
        rw [hfn] at hstep
        rw [hres i h1 (Nat.le_trans h2 hc2), hstep]
      have hres2 : ∀ i, (pickleVal ok st v).1.npy_counter < i →
          i ≤ (pickleList ok (pickleVal ok st v).1 vs).1.npy_counter →
          lookupFile d
              (open_file D (sidePath (pickleVal ok st v).1.filename i).name) =
            lookupFile (pickleList ok (pickleVal ok st v).1 vs).1.disk
              (sidePath (pickleVal ok st v).1.filename i) := by
        intro i h1 h2
        rw [hfn]
        exact hres i (Nat.lt_of_le_of_lt hc1 h1) h2
      have h1 := pickleVal_unpickle ok st v d D hres1
      have h2 := pickleList_unpickle ok (pickleVal ok st v).1 vs d D hres2
      simp [unpickleList, h1, h2]

theorem pickleDict_unpickle (ok : Nat → Bool) (st : PicklerState)
    (kvs : List (String × PyVal)) (d : List (FPath × NpArray)) (D : String)
    (hres : ∀ i, st.npy_counter < i →
      i ≤ (pickleDict ok st kvs).1.npy_counter →
      lookupFile d (open_file D (sidePath st.filename i).name) =
        lookupFile (pickleDict ok st kvs).1.disk (sidePath st.filename i)) :
    unpickleDict d D none (pickleDict ok st kvs).2 = Except.ok kvs := by
  cases kvs with
  | nil => rfl
  | cons kv kvs =>
      simp only [pickleDict] at hres ⊢
      have hfn := pickleVal_filename ok st kv.2
      have hc1 := pickleVal_counter_le ok st kv.2
      have hc2 := pickleDict_counter_le ok (pickleVal ok st kv.2).1 kvs
      have hres1 : ∀ i, st.npy_counter < i →
          i ≤ (pickleVal ok st kv.2).1.npy_counter →
          lookupFile d (open_file D (sidePath st.filename i).name) =
            lookupFile (pickleVal ok st kv.2).1.disk (sidePath st.filename i) := by
        intro i h1 h2
        have hstep := pickleDict_lookup_stable ok (pickleVal ok st kv.2).1 kvs i h2
        rw [hfn] at hstep
        rw [hres i h1 (Nat.le_trans h2 hc2), hstep]
      have hres2 : ∀ i, (pickleVal ok st kv.2).1.npy_counter < i →
          i ≤ (pickleDict ok (pickleVal ok st kv.2).1 kvs).1.npy_counter →
          lookupFile d
              (open_file D (sidePath (pickleVal ok st kv.2).1.filename i).name) =
            lookupFile (pickleDict ok (pickleVal ok st kv.2).1 kvs).1.disk
              (sidePath (pickleVal ok st kv.2).1.filename i) := by
        intro i h1 h2
        rw [hfn]
        exact hres i (Nat.lt_of_le_of_lt hc1 h1) h2
      have h1 := pickleVal_unpickle ok st kv.2 d D hres1
      have h2 := pickleDict_unpickle ok (pickleVal ok st kv.2).1 kvs d D hres2
      simp [unpickleDict, h1, h2]

end

/-- The initial state of the write pass of `dump ok v p`. -/
def initState (p : FPath) : PicklerState := ⟨p, [p], 0, 0, []⟩

/-- Round-trip helper: whatever the encode-failure pattern, loading the main
stream written by `dump` against the side files it created returns the
original value. -/
theorem dump_load_helper (ok : Nat → Bool) (v : PyVal) (p : FPath) :
    load [(p, (dump ok v p).stream)] (dump ok v p).disk p none =
      Except.ok v := by
  have h := pickleVal_unpickle ok (initState p) v
      (pickleVal ok (initState p) v).1.disk p.dir (fun i _ _ => rfl)
  simp [load, dump, lookupFile, initState] at h ⊢
  exact h

/-- Disk-shape helper: the side files `dump` leaves on disk are exactly
`sidePath p 1 … sidePath p N` (newest first) for `N` the final counter. -/
theorem dump_disk_shape (ok : Nat → Bool) (v : PyVal) (p : FPath) :
    (dump ok v p).disk.map Prod.fst = sidePaths p (dump ok v p).npy_counter := by
  have h := pickleVal_diskShape ok (initState p) v rfl
  simpa [dump, initState] using h

theorem sidePaths_dir (p : FPath) (c : Nat) :
    ∀ k ∈ sidePaths p c, k.dir = p.dir := by
  induction c with
  | zero => intro k hk; cases hk
  | succ n ih =>
      intro k hk
      cases hk with
      | head => rfl
      | tail _ h => exact ih k h

/-- Move a set of files (main stream or side files) into a new directory,
keeping each base name. -/
def moveFiles {α : Type} (fs : List (FPath × α)) (newDir : String) :
    List (FPath × α) :=
  fs.map (fun e => (⟨newDir, e.1.name⟩, e.2))

theorem lookup_moveFiles {α : Type} (fs : List (FPath × α)) (D nd : String)
    (n : FileName) (hD : ∀ e ∈ fs, (Prod.fst e).dir = D) :
    lookupFile (moveFiles fs nd) ⟨nd, n⟩ = lookupFile fs ⟨D, n⟩ := by
  induction fs with
  | nil => rfl
  | cons e fs ih =>
      obtain ⟨⟨d0, n0⟩, a⟩ := e
      have hd0 : d0 = D := hD _ (List.mem_cons_self _ _)
      by_cases h : n0 = n
      · subst h
        simp [moveFiles, lookupFile, hd0]
      · have hne1 : (⟨nd, n0⟩ : FPath) ≠ ⟨nd, n⟩ := by
          simp [FPath.mk.injEq, h]
        have hne2 : (⟨d0, n0⟩ : FPath) ≠ ⟨D, n⟩ := by
          simp [FPath.mk.injEq, h]
        simp only [moveFiles, List.map_cons, lookupFile, if_neg hne1, if_neg hne2]
        have hrec := ih (fun e he => hD e (List.mem_cons_of_mem _ he))
        simpa [moveFiles] using hrec

/-- Relocation helper: moving the main stream and all side files to a new
directory and loading from there still restores the value. -/
theorem dump_load_moved (ok : Nat → Bool) (v : PyVal) (p : FPath)
    (nd : String) :
    load [(⟨nd, p.name⟩, (dump ok v p).stream)]
        (moveFiles (dump ok v p).disk nd) ⟨nd, p.name⟩ none =
      Except.ok v := by
  have hshape := pickleVal_diskShape ok (initState p) v rfl
  have hD : ∀ e ∈ (pickleVal ok (initState p) v).1.disk,
      (Prod.fst e).dir = p.dir := by
    intro e he
    have hm : e.1 ∈ (pickleVal ok (initState p) v).1.disk.map Prod.fst :=
      List.mem_map_of_mem _ he
    rw [hshape] at hm
    exact sidePaths_dir p _ e.1 hm
  have hres : ∀ i, (initState p).npy_counter < i →
      i ≤ (pickleVal ok (initState p) v).1.npy_counter →
      lookupFile (moveFiles (pickleVal ok (initState p) v).1.disk nd)
          (open_file nd (sidePath (initState p).filename i).name) =
        lookupFile (pickleVal ok (initState p) v).1.disk
          (sidePath (initState p).filename i) := by
    intro i _ _
    exact lookup_moveFiles _ p.dir nd (sidePath p i).name hD
  have h := pickleVal_unpickle ok (initState p) v
      (moveFiles (pickleVal ok (initState p) v).1.disk nd) nd hres
  simp [load, dump, lookupFile, initState] at h ⊢
  exact h

/-! ### The claims -/

/-- Claim C1: for every object graph `v` containing zero or more numpy
arrays at arbitrary nesting depth, persisting `v` to a path `p` with `dump`
and then loading the main stream with `load` in copy mode
(`mmap_mode = None`) returns a value equal to `v`, including array
contents, dtype and shape (all of which `NpArray` carries). -/
theorem dump_then_load_returns_value (v : PyVal) (p : FPath) :
    load [(p, (dump (fun _ => true) v p).stream)]
        (dump (fun _ => true) v p).disk p none = Except.ok v :=
  dump_load_helper (fun _ => true) v p

/-- Claim C2 (counterexample to the manifest contract, exhibiting the code
bug): dumping a two-array list whose first `np.save` fails and second
succeeds yields a manifest whose side entries are `[sidePath p 1,
sidePath p 1]` — the failed attempt's name is appended before `np.save`
runs and never removed, and the subsequent success appends the same
(counter-rolled-back) name a second time — so the manifest holds two side
entries, one of them a duplicate, although exactly one array node was
successfully externalized (`npy_counter = 1`, one file on disk). -/
theorem manifest_keeps_failed_entry :
    (dump (fun n => decide (0 < n))
        (PyVal.list [PyVal.arr ⟨[2], "int64", [1, 2]⟩,
                     PyVal.arr ⟨[2], "int64", [3, 4]⟩])
        ⟨"d", FileName.main "f"⟩).filenames =
      [⟨"d", FileName.main "f"⟩,
       sidePath ⟨"d", FileName.main "f"⟩ 1,
       sidePath ⟨"d", FileName.main "f"⟩ 1] ∧
    (dump (fun n => decide (0 < n))
        (PyVal.list [PyVal.arr ⟨[2], "int64", [1, 2]⟩,
                     PyVal.arr ⟨[2], "int64", [3, 4]⟩])
        ⟨"d", FileName.main "f"⟩).npy_counter = 1 ∧
    (dump (fun n => decide (0 < n))
        (PyVal.list [PyVal.arr ⟨[2], "int64", [1, 2]⟩,
                     PyVal.arr ⟨[2], "int64", [3, 4]⟩])
        ⟨"d", FileName.main "f"⟩).disk =
      [(sidePath ⟨"d", FileName.main "f"⟩ 1, ⟨[2], "int64", [3, 4]⟩)] :=
  ⟨rfl, rfl, rfl⟩

/-- Claim C3 (exhibiting the code bug): `dump` does close the main stream's
handle on every exit path — its `finally` guard `hasattr(pickler, 'file')`
holds because `NumpyPickler.__init__` sets `self.file` — but `load` never
closes it, on success or failure alike: its `finally` guard tests
`hasattr(unpickler, 'file')` while the handle is stored in the attribute
`file_handle`, so the close call is dead code and the handle is still open
at exit. -/
theorem load_never_releases_handle :
    (dumpHandleFlow false).handleOpenAtExit = false ∧
    (dumpHandleFlow true).handleOpenAtExit = false ∧
    (loadHandleFlow false).handleOpenAtExit = true ∧
    (loadHandleFlow true).handleOpenAtExit = true := by
  decide

/-- Claim C4: for every write pass with `N` successful array
externalizations, the side files created on disk carry counters exactly
`1 .. N` with no gaps (rendered as the suffix `_%02i.npy` on the main
stream's name by `renderFileName`), regardless of how many encode failures
occurred in between: the disk's keys are exactly `sidePaths p N` (newest
first), and the number of files equals the final counter `N`. -/
theorem side_file_counters_dense (ok : Nat → Bool) (v : PyVal) (p : FPath) :
    (dump ok v p).disk.map Prod.fst = sidePaths p (dump ok v p).npy_counter ∧
    (dump ok v p).disk.length = (dump ok v p).npy_counter := by
  have h := dump_disk_shape ok v p
  refine ⟨h, ?_⟩
  have hl := congrArg List.length h
  simpa [sidePaths_length] using hl

/-- Claim C5: when `np.save` fails for a node during `dump`, the failure is
non-fatal: the counter increment is rolled back (no gap is left for the
next success to fill), no side file is written, and the original array is
handed to the generic engine to be pickled inline — and the overall write
still completes with the value recoverable by `load`. -/
theorem encode_failure_nonfatal (ok : Nat → Bool) (st : PicklerState)
    (a : NpArray) (v : PyVal) (p : FPath) (h : ok st.attempt = false) :
    saveArray ok st a =
      ({ st with
          filenames :=
            st.filenames ++ [sidePath st.filename (st.npy_counter + 1)],
          attempt := st.attempt + 1 },
       PklVal.arr a) ∧
    load [(p, (dump ok v p).stream)] (dump ok v p).disk p none =
      Except.ok v := by
  constructor
  · simp [saveArray, h]
  · exact dump_load_helper ok v p

theorem encode_failure_nonfatal_witness :
    ((fun _ => false) (initState ⟨"d", FileName.main "f"⟩).attempt = false) ∧
    (saveArray (fun _ => false) (initState ⟨"d", FileName.main "f"⟩)
        ⟨[2], "int64", [1, 2]⟩ =
      ({ initState ⟨"d", FileName.main "f"⟩ with
          filenames :=
            (initState ⟨"d", FileName.main "f"⟩).filenames ++
              [sidePath (initState ⟨"d", FileName.main "f"⟩).filename
                ((initState ⟨"d", FileName.main "f"⟩).npy_counter + 1)],
          attempt := (initState ⟨"d", FileName.main "f"⟩).attempt + 1 },
       PklVal.arr ⟨[2], "int64", [1, 2]⟩) ∧
    load [(⟨"d", FileName.main "f"⟩,
            (dump (fun _ => false) (PyVal.arr ⟨[2], "int64", [1, 2]⟩)
              ⟨"d", FileName.main "f"⟩).stream)]
        (dump (fun _ => false) (PyVal.arr ⟨[2], "int64", [1, 2]⟩)
          ⟨"d", FileName.main "f"⟩).disk
        ⟨"d", FileName.main "f"⟩ none =
      Except.ok (PyVal.arr ⟨[2], "int64", [1, 2]⟩)) :=
  ⟨rfl,
   encode_failure_nonfatal (fun _ => false) (initState ⟨"d", FileName.main "f"⟩)
     ⟨[2], "int64", [1, 2]⟩ (PyVal.arr ⟨[2], "int64", [1, 2]⟩)
     ⟨"d", FileName.main "f"⟩ rfl⟩

/-- Claim C6: during `load`, if a placeholder's side file is missing or
unreadable, the read fails fatally: `np.load` raises, the error propagates
to the caller, no partial object graph is returned, and there is no
fallback path on read (the wrapper carries only a file name). -/
theorem missing_side_file_fatal (d : List (FPath × NpArray)) (p : FPath)
    (name : FileName) (mm : Option String)
    (h : lookupFile d (open_file p.dir name) = none) :
    load [(p, PklVal.wrapper name)] d p mm =
      Except.error ("IOError: " ++ renderFileName name) := by
  simp [load, lookupFile, unpickleVal, h]

theorem missing_side_file_fatal_witness :
    lookupFile ([] : List (FPath × NpArray))
        (open_file (FPath.mk "d" (FileName.main "f")).dir
          (FileName.side "f" 1)) = none ∧
    load [(⟨"d", FileName.main "f"⟩, PklVal.wrapper (FileName.side "f" 1))]
        [] ⟨"d", FileName.main "f"⟩ none =
      Except.error ("IOError: " ++ renderFileName (FileName.side "f" 1)) :=
  ⟨rfl,
   missing_side_file_fatal [] ⟨"d", FileName.main "f"⟩ (FileName.side "f" 1)
     none rfl⟩

/-- Claim C7: placeholder resolution preserves the engine's stack
discipline: when the top of the reconstruction stack is an
`NDArrayWrapper` whose side file resolves, exactly that one slot is popped
and exactly one (the loaded array) is pushed — the rest of the stack is
untouched, so the height is unchanged and container node counts keep
matching their declared sizes — and a non-placeholder top is left
untouched. -/
theorem load_build_stack_discipline (disk : List (FPath × NpArray))
    (dirname : String) (mm : Option String) (name : FileName) (a : NpArray)
    (v : PyVal) (rest : List StackObj)
    (hres : lookupFile disk (open_file dirname name) = some a) :
    load_build disk dirname mm (StackObj.wrapper name :: rest) =
      Except.ok (StackObj.other (PyVal.arr (npLoad a mm)) :: rest) ∧
    load_build disk dirname mm (StackObj.other v :: rest) =
      Except.ok (StackObj.other v :: rest) := by
  constructor
  · simp [load_build, hres]
  · rfl

theorem load_build_stack_discipline_witness :
    lookupFile [((⟨"d", FileName.side "f" 1⟩ : FPath),
        (⟨[2], "int64", [1, 2]⟩ : NpArray))]
        (open_file "d" (FileName.side "f" 1)) =
      some ⟨[2], "int64", [1, 2]⟩ ∧
    (load_build [(⟨"d", FileName.side "f" 1⟩, ⟨[2], "int64", [1, 2]⟩)] "d"
        none (StackObj.wrapper (FileName.side "f" 1) :: []) =
      Except.ok (StackObj.other
        (PyVal.arr (npLoad ⟨[2], "int64", [1, 2]⟩ none)) :: []) ∧
    load_build [(⟨"d", FileName.side "f" 1⟩, ⟨[2], "int64", [1, 2]⟩)] "d"
        none (StackObj.other (PyVal.str "x") :: []) =
      Except.ok (StackObj.other (PyVal.str "x") :: [])) :=
  ⟨rfl,
   load_build_stack_discipline
     [(⟨"d", FileName.side "f" 1⟩, ⟨[2], "int64", [1, 2]⟩)] "d" none
     (FileName.side "f" 1) ⟨[2], "int64", [1, 2]⟩ (PyVal.str "x") [] rfl⟩

/-- Claim C8: a placeholder stores only the side file's base name
(`FileName`, with no directory component), and `load` resolves it through
`_open_file` against the main stream's directory — so moving the main
stream together with all its side files to a new directory and loading
from the new path still returns the original value. -/
theorem relocated_bundle_loads (ok : Nat → Bool) (v : PyVal) (p : FPath)
    (nd : String) :
    load [(⟨nd, p.name⟩, (dump ok v p).stream)]
        (moveFiles (dump ok v p).disk nd) ⟨nd, p.name⟩ none =
      Except.ok v :=
  dump_load_moved ok v p nd

/-- Claim C9: `dumpz` and `loadz` remove the private temporary staging
directory on every exit path: over all combinations of failure points
(container create/open, `mkdtemp`, staging `dump`, archive write,
`extractall`, inner `load`), no temporary directory remains after the call,
and no exception propagates while the directory still exists — removal
precedes propagation. -/
theorem tmp_dir_always_removed :
    ∀ b1 b2 b3 b4 : Bool,
      tmpAfter (dumpzTrace b1 b2 b3 b4) = false ∧
      raiseWithTmp (dumpzTrace b1 b2 b3 b4) false = false ∧
      tmpAfter (loadzTrace b1 b2 b3 b4) = false ∧
      raiseWithTmp (loadzTrace b1 b2 b3 b4) false = false := by
  decide

/-- Claim C10: because the `isinstance` interception in `NumpyPickler.save`
runs before `pickle.Pickler.save`'s memo lookup, an array object appearing
twice (same object id `oid`) is externalized once per occurrence: two side
files (`_01` and `_02`) and two distinct placeholders are produced, and
loading yields two freshly built array objects (ids 0 and 1) where the
original graph shared one — value-equal, but no longer the same object. -/
theorem shared_array_externalized_per_occurrence (a : NpArray)
    (oid lid : Nat) :
    isave ⟨⟨"d", FileName.main "f"⟩, 0, [], []⟩
        (IVal.list lid [IVal.arr oid a, IVal.arr oid a]) =
      (⟨⟨"d", FileName.main "f"⟩, 2, [lid],
        [(⟨"d", FileName.side "f" 2⟩, a), (⟨"d", FileName.side "f" 1⟩, a)]⟩,
       IPkl.list lid
         [IPkl.wrapper (FileName.side "f" 1),
          IPkl.wrapper (FileName.side "f" 2)]) ∧
    iload [(⟨"d", FileName.side "f" 2⟩, a), (⟨"d", FileName.side "f" 1⟩, a)]
        "d" ⟨0, []⟩
        (IPkl.list lid
          [IPkl.wrapper (FileName.side "f" 1),
           IPkl.wrapper (FileName.side "f" 2)]) =
      Except.ok (⟨3, [(lid, IVal.list 2 [IVal.arr 0 a, IVal.arr 1 a])]⟩,
        IVal.list 2 [IVal.arr 0 a, IVal.arr 1 a]) :=
  ⟨rfl, rfl⟩

end NumpyPickle
